import Mathlib

/-!
# Verification of the stock-report pipeline (`app.py`, `api_service.py`)

Shallow embedding of the two Python source files:

* `app.py` — `fetch_and_analyze` (price fetch, moving averages, trend signal)
  and the report page of `main` (unpacking of the result, None-check, report
  assembly).
* `api_service.py` — the mock sentiment database, `get_ai_analysis`, and the
  FastAPI route `/api/analyze/{ticker}` together with the pydantic response
  shape.

Closing prices are modelled as rationals (the Python floats), dates as natural
numbers, pandas `NaN` entries as `Option.none`, and Python tuples of different
arity as constructors of an inductive type.  The report page models
`streamlit` outcomes as an inductive: a rendered report, the back-to-input
branch of the `df is None` check, or an uncaught Python exception.
-/

namespace StockApp

/-- A row of the cleaned dataframe after `df.reset_index().rename(columns=
\x7b'Close': 'Current_Price'\x7d)` in `app.py` line 29: a date and a closing
price. -/
structure PriceRow where
  date : Nat
  current_price : ℚ
deriving DecidableEq, Repr

/-- `app.py` line 29: `reset_index` + `rename` only relabel; rows are emitted
with the content and order of the raw response, unchanged. -/
def normalizeFetched (raw : List (Nat × ℚ)) : List PriceRow :=
  raw.map (fun r => ⟨r.1, r.2⟩)

/-- `series.rolling(window=w).mean()` from `app.py` lines 30-31: entry `i` is
the mean of the `w` values ending at `i`, `NaN` (here `none`) while the window
is not yet full (pandas default `min_periods = window`). -/
def rollingMean (w : Nat) (prices : List ℚ) : List (Option ℚ) :=
  (List.range prices.length).map (fun i =>
    if w ≤ i + 1 then some (((prices.take (i + 1)).drop (i + 1 - w)).sum / (w : ℚ)) else none)

/-- One step of `df.dropna()` on the two moving-average columns (`app.py`
line 36): a row survives iff both averages are defined. -/
def definedPair : Option ℚ × Option ℚ → Option (ℚ × ℚ)
  | (some s, some l) => some (s, l)
  | _ => none

/-- `analyzed_df['MA_Short'].iloc[-1]` and `analyzed_df['MA_Long'].iloc[-1]`
(`app.py` lines 38-39): the short/long averages at the last row where both are
defined, `none` when `analyzed_df` is empty. -/
def latestMAs (prices : List ℚ) : Option (ℚ × ℚ) :=
  (((rollingMean 5 prices).zip (rollingMean 20 prices)).filterMap definedPair).getLast?

/-- The trailing mean of the last `w` prices, used to state what `latestMAs`
returns on a long enough series. -/
def maAt (w : Nat) (prices : List ℚ) : ℚ :=
  (prices.drop (prices.length - w)).sum / (w : ℚ)

/-- `quant_trend` from `app.py` lines 34-40: `"看漲"` when the latest short
average strictly exceeds the latest long average (`latest_short_ma >
latest_long_ma`), `"看跌/盤整"` otherwise, and the initial `"N/A"` when no row
has both averages defined. -/
def quantTrend (prices : List ℚ) : String :=
  match latestMAs prices with
  | some sl => if sl.2 < sl.1 then "看漲" else "看跌/盤整"
  | none => "N/A"

/-- `quant_desc` from `app.py` lines 35-41. -/
def quantDesc (prices : List ℚ) : String :=
  match latestMAs prices with
  | some _ => "短期 (5日) vs 長期 (20日) 均線趨勢。"
  | none => "數據不足，無法計算。"

/-- The two outcomes of `yf.download` that `app.py` lines 21-26 distinguish:
the call raises, or it returns a (possibly empty) frame of rows. -/
inductive DownloadOutcome
  | raises
  | frame (rows : List (Nat × ℚ))
deriving DecidableEq

/-- The value returned by `fetch_and_analyze`: a Python 2-tuple
`(None, message)` on the failure paths (lines 24 and 26), or the 3-tuple
`(df, quant_trend, quant_desc)` of line 43. -/
inductive FetchResult
  | failure (msg : String)
  | success (df : List PriceRow) (trend : String) (desc : String)
deriving DecidableEq

/-- Number of components of the returned Python tuple. -/
def tupleArity : FetchResult → Nat
  | FetchResult.failure _ => 2
  | FetchResult.success _ _ _ => 3

/-- `fetch_and_analyze` from `app.py` lines 16-43, as a function of the
download outcome. -/
def fetch_and_analyze (d : DownloadOutcome) : FetchResult :=
  match d with
  | DownloadOutcome.raises => FetchResult.failure "數據抓取失敗，請檢查代碼或網路。"
  | DownloadOutcome.frame rows =>
    if rows.isEmpty then FetchResult.failure "無法獲取股價數據。"
    else
      let df := normalizeFetched rows
      let prices := df.map PriceRow.current_price
      FetchResult.success df (quantTrend prices) (quantDesc prices)

/-- The pydantic response model `AIAnalysisResponse` of `api_service.py`
lines 33-39. -/
structure AIAnalysisResponse where
  ticker : String
  timestamp : String
  emotion : String
  conclusion : String
  positive_news : List String
  negative_news : List String
deriving DecidableEq

/-- One entry of the mock sentiment database. -/
structure MockEntry where
  emotion : String
  conclusion : String
  positive_news : List String
  negative_news : List String
deriving DecidableEq

/-- `MOCK_AI_DATABASE` from `api_service.py` lines 11-30. -/
def MOCK_AI_DATABASE : List (String × MockEntry) :=
  [ ("2330.TW",
      ⟨"強烈看漲",
       "AI 需求爆發，法說會展望樂觀，長期技術領先優勢強勁。",
       ["Q3 財報超預期，AI 需求是主要動能。", "多家券商調高目標價。"],
       ["短期股價漲多，有技術性整理壓力。"]⟩),
    ("00878.TW",
      ⟨"中性偏看漲",
       "ETF 結構具備成長與防禦，基本面支撐趨勢向上。",
       ["AI + 金融雙動能。", "規模穩定成長，填息率穩定。"],
       ["需關注配息波動。"]⟩),
    ("0050.TW",
      ⟨"中性偏看漲",
       "核心資產優勢和台積電支撐，儘管短期有調節，長期仍具穩健成長動力。",
       ["規模朝兆元級 ETF 前進。", "台積電權重高，受惠 AI 浪潮。"],
       ["近期外資持續賣超。"]⟩) ]

/-- Python's `str.upper()` as used on ticker symbols (`api_service.py`
line 45): uppercase each character; on the ASCII range this is exactly
CPython's mapping, and non-letters are left unchanged. -/
def pyUpper (s : String) : String :=
  String.mk (s.data.map Char.toUpper)

/-- `get_ai_analysis` from `api_service.py` lines 43-66, with the wall-clock
timestamp passed in as a parameter `now`. -/
def get_ai_analysis (ticker : String) (now : String) : AIAnalysisResponse :=
  let t := pyUpper ticker
  match MOCK_AI_DATABASE.lookup t with
  | some d => ⟨t, now, d.emotion, d.conclusion, d.positive_news, d.negative_news⟩
  | none =>
      ⟨t, now, "中性",
       "AI 分析庫暫無 " ++ t ++ " 的文本數據，僅提供量化分析。",
       [], []⟩

/-- A JSON value of the response body: every field is a string or a list of
strings. -/
inductive JsonVal
  | str (s : String)
  | arr (l : List String)
deriving DecidableEq

/-- The JSON body pydantic serializes for an `AIAnalysisResponse`: the fields
in declaration order (`api_service.py` lines 33-39). -/
def toJson (r : AIAnalysisResponse) : List (String × JsonVal) :=
  [ ("ticker", JsonVal.str r.ticker),
    ("timestamp", JsonVal.str r.timestamp),
    ("emotion", JsonVal.str r.emotion),
    ("conclusion", JsonVal.str r.conclusion),
    ("positive_news", JsonVal.arr r.positive_news),
    ("negative_news", JsonVal.arr r.negative_news) ]

/-- The FastAPI routing of `api_service.py` line 42: a GET whose path splits
into the segments `["api", "analyze", t]` is answered (HTTP 200) with
`get_ai_analysis t`; every other path is not served (HTTP 404, `none`). -/
def serve (now : String) (segments : List String) : Option AIAnalysisResponse :=
  match segments with
  | ["api", "analyze", t] => some (get_ai_analysis t now)
  | _ => none

/-- The unified report assembled by the report page of `main` (`app.py`
lines 95-131). -/
structure UnifiedReport where
  ticker : String
  stock_name : String
  latest_price : ℚ
  latest_date : Nat
  quant_trend : String
  quant_desc : String
  ai : AIAnalysisResponse
deriving DecidableEq

/-- What one run of the report page does: renders a report, renders the
back-to-input button of the `df is None or ai_analysis_result is None` branch,
or dies with an uncaught Python exception. -/
inductive ReportOutcome
  | report (r : UnifiedReport)
  | backToInput
  | exception
deriving DecidableEq

/-- The report page of `main`, `app.py` lines 81-144.  The statement
`df, quant_trend, quant_desc = fetch_and_analyze(ticker)` unpacks three
variables, so when `fetch_and_analyze` returns its 2-tuple failure value the
page raises `ValueError` before anything else runs; only on the 3-tuple path
does control reach the None-check and, with a sentiment response, the report
(`stock_name` from `ai_analysis_result['ticker'].replace(".TW", "")`, latest
price and date from the last dataframe row). -/
def reportPage (ticker : String) (fr : FetchResult) (ai : Option AIAnalysisResponse) :
    ReportOutcome :=
  match fr with
  | FetchResult.failure _ => ReportOutcome.exception
  | FetchResult.success df trend desc =>
    match ai with
    | none => ReportOutcome.backToInput
    | some a =>
        ReportOutcome.report
          ⟨ticker, a.ticker.replace ".TW" "",
           (df.getLastD ⟨0, 0⟩).current_price, (df.getLastD ⟨0, 0⟩).date,
           trend, desc, a⟩

/-! ## Helper lemmas -/

theorem length_rollingMean (w : Nat) (p : List ℚ) : (rollingMean w p).length = p.length := by
  simp [rollingMean]

theorem getElem_rollingMean (w : Nat) (p : List ℚ) (i : Nat)
    (hi : i < (rollingMean w p).length) :
    (rollingMean w p)[i] =
      if w ≤ i + 1 then some (((p.take (i + 1)).drop (i + 1 - w)).sum / (w : ℚ)) else none := by
  simp [rollingMean]

theorem getLast?_filterMap_eq {α β : Type} (f : α → Option β) (l : List α) (a : α) (b : β)
    (ha : l.getLast? = some a) (hb : f a = some b) :
    (l.filterMap f).getLast? = some b := by
  induction l with
  | nil => simp at ha
  | cons x xs ih =>
    cases xs with
    | nil =>
      simp only [List.getLast?_singleton, Option.some.injEq] at ha
      subst ha
      simp [List.filterMap_cons, hb]
    | cons y t =>
      rw [List.getLast?_cons_cons] at ha
      have ih2 := ih ha
      rw [List.filterMap_cons]
      cases hfx : f x with
      | none => exact ih2
      | some c =>
        obtain ⟨z, zs, hzz⟩ := List.exists_cons_of_ne_nil (l := (y :: t).filterMap f)
          (by intro h0; rw [h0] at ih2; simp at ih2)
        rw [hzz] at ih2 ⊢
        rw [List.getLast?_cons_cons]
        exact ih2

theorem rollingMean_last (w : Nat) (prices : List ℚ) (hw : 0 < w) (hwd : w ≤ prices.length)
    (hb : prices.length - 1 < (rollingMean w prices).length) :
    (rollingMean w prices)[prices.length - 1] = some (maAt w prices) := by
  rw [getElem_rollingMean w prices (prices.length - 1) hb]
  have he : prices.length - 1 + 1 = prices.length := by omega
  rw [if_pos (by omega), he, List.take_length]
  rfl

theorem latestMAs_eq (prices : List ℚ) (h : 20 ≤ prices.length) :
    latestMAs prices = some (maAt 5 prices, maAt 20 prices) := by
  have hlen : ((rollingMean 5 prices).zip (rollingMean 20 prices)).length = prices.length := by
    simp [length_rollingMean]
  have hidx : prices.length - 1 < ((rollingMean 5 prices).zip (rollingMean 20 prices)).length := by
    rw [hlen]; omega
  have hb5 : prices.length - 1 < (rollingMean 5 prices).length := by
    rw [length_rollingMean]; omega
  have hb20 : prices.length - 1 < (rollingMean 20 prices).length := by
    rw [length_rollingMean]; omega
  have h5 : (rollingMean 5 prices)[prices.length - 1] = some (maAt 5 prices) :=
    rollingMean_last 5 prices (by omega) (by omega) hb5
  have h20 : (rollingMean 20 prices)[prices.length - 1] = some (maAt 20 prices) :=
    rollingMean_last 20 prices (by omega) (by omega) hb20
  have hzip : ((rollingMean 5 prices).zip (rollingMean 20 prices)).getLast? =
      some (some (maAt 5 prices), some (maAt 20 prices)) := by
    rw [List.getLast?_eq_getElem? _, hlen, List.getElem?_eq_getElem hidx]
    rw [List.getElem_zip]
    rw [h5, h20]
  exact getLast?_filterMap_eq definedPair _ _ _ hzip rfl

theorem list_sum_lt_length_mul (l : List ℚ) (c : ℚ) (hne : l ≠ [])
    (h : ∀ x ∈ l, x < c) : l.sum < (l.length : ℚ) * c := by
  induction l with
  | nil => exact absurd rfl hne
  | cons x xs ih =>
    rcases eq_or_ne xs [] with h0 | h0
    · subst h0
      have := h x (by simp)
      simp only [List.sum_cons, List.sum_nil, List.length_cons, List.length_nil]
      push_cast
      linarith
    · have hxs := ih h0 (fun y hy => h y (List.mem_cons_of_mem _ hy))
      have hx := h x (List.mem_cons_self _ _)
      simp only [List.sum_cons, List.length_cons]
      push_cast
      push_cast at hxs
      linarith

theorem list_length_mul_le_sum (l : List ℚ) (c : ℚ) (h : ∀ x ∈ l, c ≤ x) :
    (l.length : ℚ) * c ≤ l.sum := by
  induction l with
  | nil => simp
  | cons x xs ih =>
    have hx := h x (List.mem_cons_self _ _)
    have hxs := ih (fun y hy => h y (List.mem_cons_of_mem _ hy))
    simp only [List.sum_cons, List.length_cons]
    push_cast
    push_cast at hxs
    linarith

theorem sorted20_mean_lt (t : List ℚ) (htlen : t.length = 20)
    (hinc : List.Pairwise (· < ·) t) :
    t.sum / ((20 : Nat) : ℚ) < (t.drop 15).sum / ((5 : Nat) : ℚ) := by
  have h15 : 15 < t.length := by omega
  have hpair := List.pairwise_iff_getElem.mp hinc
  have htake : ∀ x ∈ t.take 15, x < t[15] := by
    intro x hx
    obtain ⟨i, hi, hieq⟩ := List.mem_iff_getElem.mp hx
    have hi15 : i < 15 := by
      rw [List.length_take] at hi; omega
    subst hieq
    rw [List.getElem_take]
    exact hpair i 15 (by omega) h15 hi15
  have hdrop2 : ∀ x ∈ t.drop 15, t[15] ≤ x := by
    intro x hx
    obtain ⟨i, hi, hieq⟩ := List.mem_iff_getElem.mp hx
    have hi5 : i < 5 := by
      rw [List.length_drop] at hi; omega
    subst hieq
    rw [List.getElem_drop]
    rcases Nat.eq_zero_or_pos i with rfl | hpos
    · have he : 15 + 0 = 15 := rfl
      simp only [he]
      exact le_rfl
    · exact le_of_lt (hpair 15 (15 + i) h15 (by omega) (by omega))
  have hlen_take : (t.take 15).length = 15 := by rw [List.length_take]; omega
  have hlen_drop : (t.drop 15).length = 5 := by rw [List.length_drop]; omega
  have hne : t.take 15 ≠ [] := by
    intro h0; rw [h0] at hlen_take; simp at hlen_take
  have hA : (t.take 15).sum < ((15 : Nat) : ℚ) * t[15] := by
    have h1 := list_sum_lt_length_mul _ _ hne htake
    rw [hlen_take] at h1
    exact h1
  have hB : ((5 : Nat) : ℚ) * t[15] ≤ (t.drop 15).sum := by
    have h1 := list_length_mul_le_sum _ (t[15]) hdrop2
    rw [hlen_drop] at h1
    exact h1
  have hsum : (t.take 15).sum + (t.drop 15).sum = t.sum := List.sum_take_add_sum_drop t 15
  rw [div_lt_div_iff₀ (by positivity) (by positivity)]
  push_cast at hA hB ⊢
  linarith

theorem maAt_20_lt_maAt_5 (prices : List ℚ) (h20 : 20 ≤ prices.length)
    (hinc : List.Pairwise (· < ·) (prices.drop (prices.length - 20))) :
    maAt 20 prices < maAt 5 prices := by
  have htlen : (prices.drop (prices.length - 20)).length = 20 := by
    rw [List.length_drop]; omega
  have h1 := sorted20_mean_lt _ htlen hinc
  have hma20 : maAt 20 prices = (prices.drop (prices.length - 20)).sum / ((20 : Nat) : ℚ) := rfl
  have hma5 : maAt 5 prices = ((prices.drop (prices.length - 20)).drop 15).sum / ((5 : Nat) : ℚ) := by
    have hdd : prices.drop (prices.length - 5) = (prices.drop (prices.length - 20)).drop 15 := by
      rw [List.drop_drop]
      congr 1
      omega
    rw [maAt, hdd]
  rw [hma20, hma5]
  exact h1

theorem char_toUpper_eq (c : Char) :
    c.toUpper = if 97 ≤ c.toNat ∧ c.toNat ≤ 122 then Char.ofNat (c.toNat - 32) else c := rfl

theorem char_toUpper_idem (c : Char) : c.toUpper.toUpper = c.toUpper := by
  by_cases h : 97 ≤ c.toNat ∧ c.toNat ≤ 122
  · have hv : Nat.isValidChar (c.toNat - 32) := Or.inl (by omega)
    have htn : (Char.ofNat (c.toNat - 32)).toNat = c.toNat - 32 := by
      unfold Char.ofNat
      rw [dif_pos hv]
      rfl
    rw [char_toUpper_eq c, if_pos h, char_toUpper_eq, htn, if_neg (by omega)]
  · rw [char_toUpper_eq c, if_neg h, char_toUpper_eq c, if_neg h]

theorem pyUpper_idem (s : String) : pyUpper (pyUpper s) = pyUpper s := by
  unfold pyUpper
  congr 1
  show (s.data.map Char.toUpper).map Char.toUpper = s.data.map Char.toUpper
  rw [List.map_map]
  exact List.map_congr_left fun a _ => char_toUpper_idem a

/-! ## Claims -/

/-- Claim C1: for every price series with at least 20 points, the moving-average
columns `MA_Short` and `MA_Long` both have the length of the source series, and
exactly the first 4 `MA_Short` entries and exactly the first 19 `MA_Long`
entries are undefined (`none`, i.e. absent, not zero). -/
theorem ma_series_shape (prices : List ℚ) (h : 20 ≤ prices.length) :
    (rollingMean 5 prices).length = prices.length ∧
    (rollingMean 20 prices).length = prices.length ∧
    (∀ i, ∀ hi : i < (rollingMean 5 prices).length,
      ((rollingMean 5 prices)[i] = none ↔ i < 4)) ∧
    (∀ i, ∀ hi : i < (rollingMean 20 prices).length,
      ((rollingMean 20 prices)[i] = none ↔ i < 19)) := by
  refine ⟨length_rollingMean 5 prices, length_rollingMean 20 prices, ?_, ?_⟩
  · intro i hi
    rw [getElem_rollingMean 5 prices i hi]
    split
    · simp only [reduceCtorEq, false_iff]
      omega
    · simp only [true_iff]
      omega
  · intro i hi
    rw [getElem_rollingMean 20 prices i hi]
    split
    · simp only [reduceCtorEq, false_iff]
      omega
    · simp only [true_iff]
      omega

/-- Witness for C1 at a concrete 20-point series. -/
theorem ma_series_shape_witness :
    (rollingMean 5 (List.replicate 20 (3 : ℚ))).length = (List.replicate 20 (3 : ℚ)).length ∧
    (rollingMean 20 (List.replicate 20 (3 : ℚ))).length = (List.replicate 20 (3 : ℚ)).length :=
  ⟨(ma_series_shape (List.replicate 20 3) (by decide)).1,
   (ma_series_shape (List.replicate 20 3) (by decide)).2.1⟩

/-- Claim C2: whenever some date has both moving averages defined, the signal
computed from the most recent such date is `"看漲"` (Bullish) exactly when the
short average strictly exceeds the long one and `"看跌/盤整"`
(Bearish/Consolidating) when short ≤ long; in particular every 20-point
constant series has equal averages at the final point and yields `"看跌/盤整"`
(ties resolve to bearish). -/
theorem trend_tie_policy :
    (∀ (prices : List ℚ) (s l : ℚ), latestMAs prices = some (s, l) →
      quantTrend prices = if l < s then "看漲" else "看跌/盤整") ∧
    (∀ c : ℚ, latestMAs (List.replicate 20 c) = some (c, c) ∧
      quantTrend (List.replicate 20 c) = "看跌/盤整") := by
  constructor
  · intro prices s l hsl
    unfold quantTrend
    rw [hsl]
  · intro c
    have hlen : 20 ≤ (List.replicate 20 c).length := by simp
    have h5 : maAt 5 (List.replicate 20 c) = c := by
      unfold maAt
      simp only [List.length_replicate, List.drop_replicate, List.sum_replicate, nsmul_eq_mul]
      norm_num
    have h20 : maAt 20 (List.replicate 20 c) = c := by
      unfold maAt
      simp only [List.length_replicate, List.drop_replicate, List.sum_replicate, nsmul_eq_mul]
      norm_num
    have hl := latestMAs_eq (List.replicate 20 c) hlen
    rw [h5, h20] at hl
    refine ⟨hl, ?_⟩
    unfold quantTrend
    rw [hl]
    simp

/-- Witness for C2 at the constant series of twenty 7s. -/
theorem trend_tie_policy_witness :
    latestMAs (List.replicate 20 (7 : ℚ)) = some (7, 7) ∧
    quantTrend (List.replicate 20 (7 : ℚ)) = "看跌/盤整" :=
  ⟨(trend_tie_policy.2 7).1,
   (trend_tie_policy.1 (List.replicate 20 7) 7 7 ((trend_tie_policy.2 7).1)).trans
     (if_neg (lt_irrefl 7))⟩

/-- Claim C3: if the final 20 closing values of a (≥ 20 point) series strictly
increase, then the 5-day average at the final point strictly exceeds the 20-day
average there, and the trend signal is `"看漲"` (Bullish). -/
theorem rising_series_bullish (prices : List ℚ) (h20 : 20 ≤ prices.length)
    (hinc : List.Pairwise (· < ·) (prices.drop (prices.length - 20))) :
    latestMAs prices = some (maAt 5 prices, maAt 20 prices) ∧
    maAt 20 prices < maAt 5 prices ∧
    quantTrend prices = "看漲" := by
  have hlast := latestMAs_eq prices h20
  have hgt := maAt_20_lt_maAt_5 prices h20 hinc
  refine ⟨hlast, hgt, ?_⟩
  unfold quantTrend
  rw [hlast]
  exact if_pos hgt

/-- Witness for C3 at the strictly increasing series 0,1,…,19. -/
theorem rising_series_bullish_witness :
    quantTrend [(0 : ℚ), 1, 2, 3, 4, 5, 6, 7, 8, 9, 10, 11, 12, 13, 14, 15, 16, 17, 18, 19] =
      "看漲" :=
  (rising_series_bullish
    [(0 : ℚ), 1, 2, 3, 4, 5, 6, 7, 8, 9, 10, 11, 12, 13, 14, 15, 16, 17, 18, 19]
    (by decide) (by decide)).2.2

/-- Claim C4 (code bug): on an empty fetched frame, `fetch_and_analyze` returns
the 2-tuple `(None, "無法獲取股價數據。")` without ever computing the `"N/A"`
(Undetermined) signal, and the report page's 3-variable unpacking raises an
exception for every sentiment value — the claim's "Undetermined, no error"
behaviour does not happen; only the analyzer half in isolation (`quantTrend []
= "N/A"`) matches the claim. -/
theorem empty_fetch_crashes_report_page :
    fetch_and_analyze (DownloadOutcome.frame []) = FetchResult.failure "無法獲取股價數據。" ∧
    (∀ (ticker : String) (ai : Option AIAnalysisResponse),
      reportPage ticker (fetch_and_analyze (DownloadOutcome.frame [])) ai =
        ReportOutcome.exception) ∧
    quantTrend [] = "N/A" :=
  ⟨rfl, fun _ _ => rfl, rfl⟩

/-- Claim C5: when the price fetch fails (transport error or empty frame), the
report page never produces a `UnifiedReport`, its outcome is the error outcome,
and the outcome does not depend on the sentiment result. -/
theorem fetch_failure_fails_report (ticker : String) (d : DownloadOutcome)
    (ai ai₂ : Option AIAnalysisResponse)
    (hfail : d = DownloadOutcome.raises ∨ d = DownloadOutcome.frame []) :
    (∀ r : UnifiedReport, reportPage ticker (fetch_and_analyze d) ai ≠ ReportOutcome.report r) ∧
    reportPage ticker (fetch_and_analyze d) ai = ReportOutcome.exception ∧
    reportPage ticker (fetch_and_analyze d) ai = reportPage ticker (fetch_and_analyze d) ai₂ := by
  have hm : ∃ m, fetch_and_analyze d = FetchResult.failure m := by
    rcases hfail with rfl | rfl
    · exact ⟨_, rfl⟩
    · exact ⟨_, rfl⟩
  obtain ⟨m, hm⟩ := hm
  rw [hm]
  exact ⟨fun r h => ReportOutcome.noConfusion h, rfl, rfl⟩

/-- Witness for C5: a transport failure for "2330.TW" does not produce this
(or, by the theorem, any) unified report. -/
theorem fetch_failure_fails_report_witness :
    reportPage "2330.TW" (fetch_and_analyze DownloadOutcome.raises) none ≠
      ReportOutcome.report
        ⟨"2330.TW", "2330", 600, 0, "看漲", "短期 (5日) vs 長期 (20日) 均線趨勢。",
         ⟨"2330.TW", "t", "強烈看漲", "c", [], []⟩⟩ :=
  (fetch_failure_fails_report "2330.TW" DownloadOutcome.raises none none (Or.inl rfl)).1 _

/-- Claim C10: every failure path of `fetch_and_analyze` returns the 2-tuple
`(None, message)` while the success path returns a 3-tuple, so the report
page's three-variable unpacking raises an exception on every failure input and
never reaches the None-check (back-to-input) branch there. -/
theorem failure_tuple_unpacking :
    (∀ (d : DownloadOutcome) (ticker : String) (ai : Option AIAnalysisResponse),
      (d = DownloadOutcome.raises ∨ d = DownloadOutcome.frame []) →
      tupleArity (fetch_and_analyze d) = 2 ∧
      (∃ msg, fetch_and_analyze d = FetchResult.failure msg) ∧
      reportPage ticker (fetch_and_analyze d) ai = ReportOutcome.exception ∧
      reportPage ticker (fetch_and_analyze d) ai ≠ ReportOutcome.backToInput) ∧
    (∀ rows : List (Nat × ℚ), rows ≠ [] →
      tupleArity (fetch_and_analyze (DownloadOutcome.frame rows)) = 3) := by
  constructor
  · rintro d ticker ai (rfl | rfl)
    · exact ⟨rfl, ⟨_, rfl⟩, rfl, fun h => ReportOutcome.noConfusion h⟩
    · exact ⟨rfl, ⟨_, rfl⟩, rfl, fun h => ReportOutcome.noConfusion h⟩
  · intro rows hne
    cases rows with
    | nil => exact absurd rfl hne
    | cons a l => rfl

/-- Witness for C10 at a raising download and a one-row frame. -/
theorem failure_tuple_unpacking_witness :
    tupleArity (fetch_and_analyze DownloadOutcome.raises) = 2 ∧
    reportPage "2330.TW" (fetch_and_analyze DownloadOutcome.raises) none =
      ReportOutcome.exception ∧
    tupleArity (fetch_and_analyze (DownloadOutcome.frame [(0, (600 : ℚ))])) = 3 :=
  ⟨(failure_tuple_unpacking.1 DownloadOutcome.raises "2330.TW" none (Or.inl rfl)).1,
   (failure_tuple_unpacking.1 DownloadOutcome.raises "2330.TW" none (Or.inl rfl)).2.2.1,
   failure_tuple_unpacking.2 [(0, 600)] (List.cons_ne_nil _ _)⟩

/-- Claim C6: for every symbol absent from the sentiment database, the lookup
returns a well-formed report with neutral emotion `"中性"`, a conclusion that
contains the uppercased symbol, and empty positive/negative news lists (it is a
total function, so it never raises). -/
theorem unknown_symbol_neutral_fallback (t now : String)
    (h : MOCK_AI_DATABASE.lookup (pyUpper t) = none) :
    (get_ai_analysis t now).emotion = "中性" ∧
    (∃ a b, (get_ai_analysis t now).conclusion = a ++ pyUpper t ++ b) ∧
    (get_ai_analysis t now).positive_news = [] ∧
    (get_ai_analysis t now).negative_news = [] := by
  have hval : get_ai_analysis t now =
      ⟨pyUpper t, now, "中性",
       "AI 分析庫暫無 " ++ pyUpper t ++ " 的文本數據，僅提供量化分析。", [], []⟩ := by
    simp only [get_ai_analysis, h]
  rw [hval]
  exact ⟨rfl, ⟨"AI 分析庫暫無 ", " 的文本數據，僅提供量化分析。", rfl⟩, rfl, rfl⟩

/-- Witness for C6 at the unknown symbol "9999.XX". -/
theorem unknown_symbol_neutral_fallback_witness :
    (get_ai_analysis "9999.XX" "2025-10-12 00:00:00").emotion = "中性" ∧
    (get_ai_analysis "9999.XX" "2025-10-12 00:00:00").positive_news = [] :=
  ⟨(unknown_symbol_neutral_fallback "9999.XX" "2025-10-12 00:00:00" (by decide)).1,
   (unknown_symbol_neutral_fallback "9999.XX" "2025-10-12 00:00:00" (by decide)).2.2.1⟩

/-- Claim C7: the lookup normalizes its symbol to uppercase before consulting
the database: the response for `t` agrees with the response for the uppercased
`t` in every field except the timestamp, and the `ticker` field is always the
uppercased input. -/
theorem lookup_uppercase_normalization (t now₁ now₂ : String) :
    (get_ai_analysis t now₁).ticker = (get_ai_analysis (pyUpper t) now₂).ticker ∧
    (get_ai_analysis t now₁).emotion = (get_ai_analysis (pyUpper t) now₂).emotion ∧
    (get_ai_analysis t now₁).conclusion = (get_ai_analysis (pyUpper t) now₂).conclusion ∧
    (get_ai_analysis t now₁).positive_news = (get_ai_analysis (pyUpper t) now₂).positive_news ∧
    (get_ai_analysis t now₁).negative_news = (get_ai_analysis (pyUpper t) now₂).negative_news ∧
    (get_ai_analysis t now₁).ticker = pyUpper t := by
  have hid : pyUpper (pyUpper t) = pyUpper t := pyUpper_idem t
  simp only [get_ai_analysis, hid]
  cases MOCK_AI_DATABASE.lookup (pyUpper t) <;> simp

/-- Claim C8 counterexample: the service does not answer `GET /analyze/2330.TW`
(the route has the `/api` prefix), and the response body has no `symbol` field
(the field is named `ticker`). -/
theorem route_and_field_names_counterexample :
    serve "2025-10-12 00:00:00" ["analyze", "2330.TW"] = none ∧
    ¬ ("symbol" ∈ (toJson (get_ai_analysis "2330.TW" "2025-10-12 00:00:00")).map Prod.fst) := by
  constructor
  · rfl
  · decide

/-- Claim C8 (amended): the boundary serves `GET /api/analyze/{ticker}` and
returns a body with exactly the fields ticker, timestamp, emotion, conclusion,
positive_news, negative_news (in this order); unknown symbols are still
answered (HTTP 200) in the neutral-fallback shape. -/
theorem route_and_field_names (t now : String) :
    serve now ["api", "analyze", t] = some (get_ai_analysis t now) ∧
    (toJson (get_ai_analysis t now)).map Prod.fst =
      ["ticker", "timestamp", "emotion", "conclusion", "positive_news", "negative_news"] ∧
    (MOCK_AI_DATABASE.lookup (pyUpper t) = none →
      (get_ai_analysis t now).emotion = "中性" ∧
      (get_ai_analysis t now).positive_news = [] ∧
      (get_ai_analysis t now).negative_news = []) := by
  refine ⟨rfl, rfl, fun h => ?_⟩
  have hval : get_ai_analysis t now =
      ⟨pyUpper t, now, "中性",
       "AI 分析庫暫無 " ++ pyUpper t ++ " 的文本數據，僅提供量化分析。", [], []⟩ := by
    simp only [get_ai_analysis, h]
  rw [hval]
  exact ⟨rfl, rfl, rfl⟩

/-- Witness for C8 (amended) at the unknown symbol "9999.XX". -/
theorem route_and_field_names_witness :
    serve "2025-10-12 00:00:00" ["api", "analyze", "9999.XX"] =
      some (get_ai_analysis "9999.XX" "2025-10-12 00:00:00") ∧
    (get_ai_analysis "9999.XX" "2025-10-12 00:00:00").emotion = "中性" :=
  ⟨(route_and_field_names "9999.XX" "2025-10-12 00:00:00").1,
   ((route_and_field_names "9999.XX" "2025-10-12 00:00:00").2.2 (by decide)).1⟩

/-- Claim C9 counterexample: the fetch step performs no sorting and no
duplicate-dropping — a raw response with duplicate, out-of-order dates passes
through with its dates neither unique nor ascending. -/
theorem fetch_no_normalization_counterexample :
    ¬ ((normalizeFetched [(2, (5 : ℚ)), (2, 5), (1, 3)]).map PriceRow.date).Pairwise (· < ·) := by
  decide

/-- Claim C9 (amended): the fetch step only relabels; it emits exactly the raw
rows in their original order, so the resulting dates are unique and ascending
if and only if the raw response's dates already are. -/
theorem fetch_preserves_raw_rows (raw : List (Nat × ℚ)) :
    (normalizeFetched raw).map (fun r => (r.date, r.current_price)) = raw ∧
    (((normalizeFetched raw).map PriceRow.date).Pairwise (· < ·) ↔
      (raw.map Prod.fst).Pairwise (· < ·)) := by
  have h1 : (normalizeFetched raw).map (fun r => (r.date, r.current_price)) = raw := by
    unfold normalizeFetched
    rw [List.map_map]
    have h2 : raw.map ((fun r : PriceRow => (r.date, r.current_price)) ∘
        fun q : Nat × ℚ => (⟨q.1, q.2⟩ : PriceRow)) = raw.map id :=
      List.map_congr_left fun p _ => rfl
    rw [h2, List.map_id]
  have hmap : (normalizeFetched raw).map PriceRow.date = raw.map Prod.fst := by
    unfold normalizeFetched
    rw [List.map_map]
    exact List.map_congr_left fun p _ => rfl
  exact ⟨h1, by rw [hmap]⟩

end StockApp
